import Mathlib

/-!
Verification development for the XRayDiffusion data-preparation pipeline.

The embedding below translates the two Python modules of the repository:

* `src/datamodules/chest_x_ray_dataset.py` — the current (224×224) variant:
  `ChestXRayDataset`, `ChestXRayDatasetPerLabel`, `ChestXRayDataModule`
  with the seeded three-stage stratified split and the five `reduce_train`
  augmentation modes.
* `src/dataset.py` — the legacy (28×28) variant: the same class names with a
  single optional transform and an unseeded three-stage stratified split.

Machine integers do not occur (all quantities are Python ints, modelled as
`Nat`); images are modelled by their decoded geometry (width, height) plus an
opaque payload.  The external library call
`datasets.Dataset.train_test_split(test_size=…, stratify_by_column="label",
seed=…)` is modelled, per the documented contract of the `datasets` library,
as a seeded stratified shuffle split: the test branch receives
⌈test_size·n⌉ records, allocated per label proportionally to label counts,
records chosen by a seed-determined shuffle within each label group.
-/

/-- A decoded image.  `width`/`height` model the PIL geometry (PIL stores
`Image.size` as the pair `(width, height)`); `payload` stands for the pixel
contents, which no claim inspects. -/
structure Image where
  width : Nat
  height : Nat
  payload : Nat
deriving DecidableEq, Repr

/-- PIL convention: `image.size` is the pair `(width, height)`, hence in the
Python source `image.size[-2]` is the width and `image.size[-1]` is the
height. -/
def Image.size (img : Image) : Nat × Nat :=
  (img.width, img.height)

/-- One record of the raw corpus: a row with an `image` and a `label`
column, as produced by `load_dataset` in both variants. -/
structure Record where
  image : Image
  label : Nat
deriving DecidableEq, Repr

/-- The transform objects built by the pipeline.  `resizeT hw` is the
`Compose([Grayscale, ToTensor, Resize(hw)])` of `setup`, `padT hw` is the
`Compose([Grayscale, ToTensor, CenterCrop(hw)])`, and `sampleT` is the
`Compose([Grayscale, ToTensor])` of `create_sampled_dataset`.  Only the
output geometry is modelled: `Resize` and `CenterCrop` both force the target
shape, `Grayscale`/`ToTensor` leave geometry unchanged. -/
inductive Transform where
  | resizeT (hw : Nat × Nat)
  | padT (hw : Nat × Nat)
  | sampleT
deriving DecidableEq, Repr

/-- Geometric action of a transform on an image. -/
def applyTransform : Transform → Image → Image
  | Transform.resizeT hw, img => { width := hw.2, height := hw.1, payload := img.payload }
  | Transform.padT hw, img => { width := hw.2, height := hw.1, payload := img.payload }
  | Transform.sampleT, img => img

/-- The branch condition of `ChestXRayDataset.__getitem__`
(src/datamodules/chest_x_ray_dataset.py line 24):
`image.size[-2] < self.target_shape[0] and image.size[-1] < self.target_shape[1]`.
Since PIL `size` is `(width, height)`, `size[-2]` is `size.1` (the width) and
`size[-1]` is `size.2` (the height).  Returns `true` when the padding
(center-crop) transform is chosen, `false` when the resize transform is
chosen. -/
def selectsPadding (image : Image) (target_shape : Nat × Nat) : Bool :=
  decide (image.size.1 < target_shape.1) && decide (image.size.2 < target_shape.2)

/-- The value stored in the `target_shape` attribute of the 224×224
`ChestXRayDataset`.  Python is dynamically typed: the intended value is a
`(height, width)` pair, but `ChestXRayDatasetPerLabel.__init__` passes its
`transform` argument positionally into this slot. -/
inductive ShapeSlot where
  | shape (hw : Nat × Nat)
  | transformObj (t : Option Transform)
deriving DecidableEq, Repr

/-- `ChestXRayDataset` of src/datamodules/chest_x_ray_dataset.py (224×224
variant).  Field defaults mirror the keyword defaults
`transform_resize=None, transform_padding=None`. -/
structure ChestXRayDataset where
  dataset : List Record
  target_shape : ShapeSlot
  transform_resize : Option Transform := none
  transform_padding : Option Transform := none
deriving DecidableEq, Repr

/-- `ChestXRayDataset.__getitem__` (224×224 variant).  `none` models a Python
exception: an `IndexError` for an out-of-range index, or the `TypeError`
raised by `self.target_shape[0]` when that slot holds a transform object
rather than a pair.  The transform branch runs only when both
`transform_resize` and `transform_padding` are truthy (non-`None`). -/
def ChestXRayDataset.getitem (d : ChestXRayDataset) (idx : Nat) : Option (Image × Nat) :=
  match d.dataset.get? idx with
  | none => none
  | some r =>
    match d.transform_resize, d.transform_padding with
    | some tr, some tp =>
      match d.target_shape with
      | ShapeSlot.shape hw =>
        if selectsPadding r.image hw then
          some (applyTransform tp r.image, r.label)
        else
          some (applyTransform tr r.image, r.label)
      | ShapeSlot.transformObj _ => none
    | _, _ => some (r.image, r.label)

/-- The index remapping built by `ChestXRayDatasetPerLabel.__init__` in both
variants: `[i for i in range(len(dataset)) if dataset['label'][i] == label]`. -/
def labelIndices (dataset : List Record) (label : Nat) : List Nat :=
  (List.range dataset.length).filter fun i =>
    ((dataset.get? i).map Record.label) == some label

/-- `ChestXRayDatasetPerLabel` of src/datamodules/chest_x_ray_dataset.py. -/
structure ChestXRayDatasetPerLabel where
  base : ChestXRayDataset
  indices : List Nat
deriving DecidableEq, Repr

/-- `ChestXRayDatasetPerLabel.__init__(dataset, label, transform)` of the
224×224 variant.  The call `super().__init__(dataset, transform)` passes
`transform` positionally into the `target_shape` parameter of the base
constructor, so `transform_resize` and `transform_padding` keep their `None`
defaults. -/
def mkPerLabel (dataset : List Record) (label : Nat) (transform : Option Transform) :
    ChestXRayDatasetPerLabel :=
  { base := { dataset := dataset, target_shape := ShapeSlot.transformObj transform },
    indices := labelIndices dataset label }

/-- `ChestXRayDatasetPerLabel.__getitem__`: remap through `indices`, then
delegate to the base class. -/
def ChestXRayDatasetPerLabel.getitem (d : ChestXRayDatasetPerLabel) (idx : Nat) :
    Option (Image × Nat) :=
  match d.indices.get? idx with
  | none => none
  | some real_idx => d.base.getitem real_idx

/-- `ChestXRayDataset` of src/dataset.py (legacy 28×28 variant): a single
optional transform, applied whenever present. -/
structure ChestXRayDatasetLegacy where
  dataset : List Record
  transform : Option Transform := none
deriving DecidableEq, Repr

/-- `ChestXRayDataset.__getitem__` of the legacy variant. -/
def ChestXRayDatasetLegacy.getitem (d : ChestXRayDatasetLegacy) (idx : Nat) :
    Option (Image × Nat) :=
  match d.dataset.get? idx with
  | none => none
  | some r =>
    match d.transform with
    | some t => some (applyTransform t r.image, r.label)
    | none => some (r.image, r.label)

/-- `ChestXRayDatasetPerLabel` of src/dataset.py. -/
structure ChestXRayDatasetPerLabelLegacy where
  base : ChestXRayDatasetLegacy
  indices : List Nat
deriving DecidableEq, Repr

/-- `ChestXRayDatasetPerLabel.__init__` of the legacy variant: here the base
constructor signature is `(dataset, transform=None)`, so the transform lands
in the transform slot. -/
def mkPerLabelLegacy (dataset : List Record) (label : Nat) (transform : Option Transform) :
    ChestXRayDatasetPerLabelLegacy :=
  { base := { dataset := dataset, transform := transform },
    indices := labelIndices dataset label }

/-- `ChestXRayDatasetPerLabel.__getitem__` of the legacy variant. -/
def ChestXRayDatasetPerLabelLegacy.getitem (d : ChestXRayDatasetPerLabelLegacy) (idx : Nat) :
    Option (Image × Nat) :=
  match d.indices.get? idx with
  | none => none
  | some real_idx => d.base.getitem real_idx

/-!
Model of `datasets.Dataset.train_test_split(test_size=num/den,
stratify_by_column="label", seed=seed)`.  Per the documented contract of the
`datasets` library this is a stratified shuffle split: the test branch
receives `ceil(test_size * n)` records in total, allocated across the label
groups proportionally (floor of the proportional share per group, the
remainder topped up across groups), and within each label group the chosen
records are determined by a shuffle that is a pure function of the seed.
The shuffle itself is modelled by a Fisher–Yates selection driven by a
linear congruential generator; which permutation is used is irrelevant to
every claim, only that it is a seed-determined permutation of the group.
-/

/-- A linear congruential pseudo-random step, standing in for the NumPy
generator that the `datasets` library derives from the seed. -/
def lcg (s : Nat) : Nat :=
  (1103515245 * s + 12345) % 2147483648

/-- Remove the element at position `i`, returning it and the remainder. -/
def extractAt {α : Type} : Nat → List α → Option (α × List α)
  | _, [] => none
  | 0, x :: xs => some (x, xs)
  | n + 1, x :: xs =>
    match extractAt n xs with
    | none => none
    | some (y, ys) => some (y, x :: ys)

/-- Fisher–Yates selection with explicit fuel. -/
def shuffleGo {α : Type} : Nat → Nat → List α → List α
  | 0, _, l => l
  | fuel + 1, s, l =>
    match extractAt (s % l.length) l with
    | none => []
    | some (y, ys) => y :: shuffleGo fuel (lcg s) ys

/-- Seed-determined permutation of a list. -/
def seededShuffle {α : Type} (l : List α) (s : Nat) : List α :=
  shuffleGo l.length s l

/-- Ceiling division on naturals: `ceilDivNat a b = ⌈a / b⌉`, matching the
`math.ceil(test_size * n)` test-branch size of the library contract. -/
def ceilDivNat (a b : Nat) : Nat :=
  (a + b - 1) / b

/-- The distinct labels occurring in a record list (each exactly once). -/
def distinctLabels : List Record → List Nat
  | [] => []
  | r :: rs =>
    let ls := distinctLabels rs
    if r.label ∈ ls then ls else r.label :: ls

/-- All records of `ds` carrying the label `l`. -/
def labelGroup (ds : List Record) (l : Nat) : List Record :=
  ds.filter fun r => r.label == l

/-- Pair each label group with its test-branch quota: the floor of its
proportional share of the `k` test records, plus a top-up from the running
remainder `r` so that the quotas sum to exactly `k`. -/
def allocGroups (k n : Nat) : List (List Record) → Nat → List (List Record × Nat)
  | [], _ => []
  | g :: gs, r =>
    let base := k * g.length / n
    let extra := min r (g.length - base)
    (g, base + extra) :: allocGroups k n gs (r - extra)

/-- Shuffle each label group with the seed and cut off its quota: the first
component collects the train branches, the second the test branches. -/
def splitAlloc (seed : Nat) : List (List Record × Nat) → List Record × List Record
  | [] => ([], [])
  | (g, a) :: rest =>
    let sh := seededShuffle g seed
    let p := splitAlloc seed rest
    (sh.drop a ++ p.1, sh.take a ++ p.2)

/-- The dictionary returned by `train_test_split`: the `train` and `test`
branches, accessed in the source as `split['train']` and `split['test']`. -/
structure SplitResult where
  train : List Record
  test : List Record
deriving DecidableEq, Repr

/-- The label groups of `ds`, one per distinct label. -/
def splitGroupsOf (ds : List Record) : List (List Record) :=
  (distinctLabels ds).map (labelGroup ds)

/-- Total size of the test branch: `ceil(test_size * n)` with
`test_size = num / den`. -/
def testQuota (ds : List Record) (num den : Nat) : Nat :=
  ceilDivNat (num * ds.length) den

/-- Label groups paired with their test-branch quotas. -/
def splitPairs (ds : List Record) (num den : Nat) : List (List Record × Nat) :=
  let k := testQuota ds num den
  let groups := splitGroupsOf ds
  let base := (groups.map fun g => k * g.length / ds.length).sum
  allocGroups k ds.length groups (k - base)

/-- Model of `ds.train_test_split(test_size=num/den,
stratify_by_column="label", seed=seed)` (see the module docstring): the test
branch receives `ceil((num/den) * n)` records, allocated per label group in
proportion to the group sizes, the records within each group selected by a
seed-determined shuffle; the train branch receives the complement. -/
def trainTestSplit (ds : List Record) (num den seed : Nat) : SplitResult :=
  { train := (splitAlloc seed (splitPairs ds num den)).1,
    test := (splitAlloc seed (splitPairs ds num den)).2 }
/-- The Python object held in `self.train_dataset` after `setup`: either a
`ChestXRayDataset` over corpus records, an `ImageFolder` over the external
sample folder (as built by `create_sampled_dataset`, with the
`Grayscale+ToTensor` transform), or a `ConcatDataset` of two of these (as
built by `merge_original_sampled_datasets`). -/
inductive TrainDataset where
  | xray (d : ChestXRayDataset)
  | imageFolder (items : List Record)
  | concatDS (a b : TrainDataset)
deriving DecidableEq, Repr

/-- The records yielded by a `TrainDataset`, in order. -/
def TrainDataset.items : TrainDataset → List Record
  | TrainDataset.xray d => d.dataset
  | TrainDataset.imageFolder its => its
  | TrainDataset.concatDS a b => a.items ++ b.items

/-- Whether any component of the train dataset is backed by corpus records
(a `ChestXRayDataset` over a split branch), as opposed to the external
sample folder. -/
def TrainDataset.usesCorpusRecords : TrainDataset → Bool
  | TrainDataset.xray _ => true
  | TrainDataset.imageFolder _ => false
  | TrainDataset.concatDS a b => a.usesCorpusRecords || b.usesCorpusRecords

/-- The state `setup` leaves behind in the 224×224 variant: the four split
partitions (`train` is the train branch of the third split, before any
augmentation mode is applied) and the augmented train dataset stored in
`self.train_dataset`. -/
structure Partitions where
  diffusion : List Record
  train : List Record
  val : List Record
  test : List Record
  trainSource : TrainDataset
deriving DecidableEq, Repr

/-- Constructor state of `ChestXRayDataModule` in
src/datamodules/chest_x_ray_dataset.py; defaults mirror
`mode='classification', device='cuda', seed=69, reduce_train="No"` and
`self.image_shape = (224, 224)`. -/
structure ChestXRayDataModule where
  data_dir : String
  batch_size : Nat
  num_workers : Nat
  training_mode : String := "classification"
  device : String := "cuda"
  seed : Nat := 69
  reduce_train : String := "No"
  image_shape : Nat × Nat := (224, 224)
deriving DecidableEq, Repr

/-- `ChestXRayDataModule.setup` of the 224×224 variant (lines 62–113).
`corpus` is the `train` collection of the loaded raw dataset; `ext` is the
content of the external sample folder `classification_sample` read by
`create_sampled_dataset`.  Line numbers in the comments refer to
src/datamodules/chest_x_ray_dataset.py. -/
def ChestXRayDataModule.setup (m : ChestXRayDataModule) (corpus ext : List Record) :
    Partitions :=
  let transform_resize := Transform.resizeT m.image_shape
  let transform_padding := Transform.padT m.image_shape
  -- line 85: 50% diffusion / 50% classification
  let diffusion_classification_split := trainTestSplit corpus 1 2 m.seed
  let diffusion_dataset := diffusion_classification_split.train
  let classification_dataset := diffusion_classification_split.test
  -- line 89: 80% train / 20% test of the classification pool
  let classification_train_test_split := trainTestSplit classification_dataset 1 5 m.seed
  let train_dataset0 := classification_train_test_split.train
  let test_dataset := classification_train_test_split.test
  -- line 93: 75% train / 25% val of the train pool
  let train_val_split := trainTestSplit train_dataset0 1 4 m.seed
  let train_dataset1 := train_val_split.train
  -- line 95: `val_dataset = train_val_split['train']` — the SAME branch as train
  let val_dataset := train_val_split.train
  -- line 96: plain `if` (not part of the chain below): under "Reduce" the
  -- local train variable becomes the test branch of a further 25% split
  let train_dataset2 :=
    if m.reduce_train = "Reduce" then (trainTestSplit train_dataset1 1 4 m.seed).test
    else train_dataset1
  -- lines 99–109: if/elif/elif/else chain assigning self.train_dataset
  let trainSource :=
    if m.reduce_train = "Reduce to merge" then
      TrainDataset.concatDS
        (TrainDataset.xray
          { dataset := (trainTestSplit train_dataset2 1 8 m.seed).test,
            target_shape := ShapeSlot.shape m.image_shape,
            transform_resize := some transform_resize,
            transform_padding := some transform_padding })
        (TrainDataset.imageFolder ext)
    else if m.reduce_train = "Use Sample Only" then
      TrainDataset.imageFolder ext
    else if m.reduce_train = "Merge Only" then
      TrainDataset.concatDS
        (TrainDataset.xray
          { dataset := train_dataset2,
            target_shape := ShapeSlot.shape m.image_shape,
            transform_resize := some transform_resize,
            transform_padding := some transform_padding })
        (TrainDataset.imageFolder ext)
    else
      TrainDataset.xray
        { dataset := train_dataset2,
          target_shape := ShapeSlot.shape m.image_shape,
          transform_resize := some transform_resize,
          transform_padding := some transform_padding }
  { diffusion := diffusion_dataset,
    train := train_dataset1,
    val := val_dataset,
    test := test_dataset,
    trainSource := trainSource }

/-- `ChestXRayDataModule.set_training_mode` (both variants, identical code):
the flag changes only when the argument is one of the two recognized
strings. -/
def ChestXRayDataModule.set_training_mode (m : ChestXRayDataModule) (mode : String) :
    ChestXRayDataModule :=
  if mode = "classification" ∨ mode = "diffusion" then
    { m with training_mode := mode }
  else
    m

/-- The dataset backing the iterator returned by `train_dataloader`:
`self.train_dataset` under `classification` mode, `self.diffusion_dataset`
(a `ChestXRayDataset` over the diffusion partition) otherwise. -/
def trainLoaderSource (m : ChestXRayDataModule) (p : Partitions) : TrainDataset :=
  if m.training_mode = "classification" then
    p.trainSource
  else
    TrainDataset.xray
      { dataset := p.diffusion,
        target_shape := ShapeSlot.shape m.image_shape,
        transform_resize := some (Transform.resizeT m.image_shape),
        transform_padding := some (Transform.padT m.image_shape) }

/-- The four partitions of the legacy (28×28) variant. -/
structure LegacyPartitions where
  diffusion : List Record
  train : List Record
  val : List Record
  test : List Record
deriving DecidableEq, Repr

/-- Models `ds.train_test_split(test_size=…, stratify_by_column="label")`
called WITHOUT a `seed` argument (src/dataset.py lines 70, 74 and 79).  Per
the documented contract of the `datasets` library, when neither `seed` nor
`generator` is given the shuffle uses a NumPy generator freshly seeded from
operating-system entropy; the split is therefore a function of that ambient
entropy, not of the corpus alone.  The drawn entropy is made explicit as the
`entropy` argument. -/
def trainTestSplitUnseeded (ds : List Record) (num den : Nat) (entropy : Nat) :
    SplitResult :=
  trainTestSplit ds num den entropy

/-- `ChestXRayDataModule.setup` of the legacy variant (src/dataset.py lines
52–83): the same three-stage cascade, unseeded, with
`val = train_val_split['test']` (the complementary branch, unlike the
224×224 variant).  Each of the three library calls draws fresh entropy;
successive draws are modelled by iterating `lcg` on the initial ambient
entropy. -/
def setupLegacy (corpus : List Record) (entropy : Nat) : LegacyPartitions :=
  let e1 := entropy
  let e2 := lcg e1
  let e3 := lcg e2
  let diffusion_classification_split := trainTestSplitUnseeded corpus 1 2 e1
  let diffusion_dataset := diffusion_classification_split.train
  let classification_dataset := diffusion_classification_split.test
  let classification_train_test_split := trainTestSplitUnseeded classification_dataset 1 5 e2
  let train_dataset := classification_train_test_split.train
  let test_dataset := classification_train_test_split.test
  let train_val_split := trainTestSplitUnseeded train_dataset 1 4 e3
  { diffusion := diffusion_dataset,
    train := train_val_split.train,
    val := train_val_split.test,
    test := test_dataset }


/-- A compact concrete corpus used to evaluate the pipeline on explicit
inputs: eight pairwise distinct records, four of label 0 and four of
label 1. -/
def sampleCorpus : List Record :=
  [{ image := { width := 100, height := 100, payload := 0 }, label := 0 },
   { image := { width := 101, height := 101, payload := 1 }, label := 0 },
   { image := { width := 102, height := 102, payload := 2 }, label := 0 },
   { image := { width := 103, height := 103, payload := 3 }, label := 0 },
   { image := { width := 104, height := 104, payload := 4 }, label := 1 },
   { image := { width := 105, height := 105, payload := 5 }, label := 1 },
   { image := { width := 106, height := 106, payload := 6 }, label := 1 },
   { image := { width := 107, height := 107, payload := 7 }, label := 1 }]

/-- A concrete module configuration with the constructor defaults
(`seed = 69`, `reduce_train = "No"`, `mode = "classification"`). -/
def sampleModule : ChestXRayDataModule :=
  { data_dir := "keremberke-chest-xray", batch_size := 4, num_workers := 0 }

/-- A concrete external sample-folder content: two records, one per label. -/
def sampleFolder : List Record :=
  [{ image := { width := 64, height := 64, payload := 90 }, label := 0 },
   { image := { width := 64, height := 64, payload := 91 }, label := 1 }]

/-- A concrete image that is wider than it is tall: width 300, height 100. -/
def wideImage : Image :=
  { width := 300, height := 100, payload := 0 }


theorem extractAt_perm {α : Type} :
    ∀ (l : List α) (i : Nat) (y : α) (ys : List α),
      extractAt i l = some (y, ys) → List.Perm l (y :: ys) := by
  intro l
  induction l with
  | nil => intro i y ys h; simp [extractAt] at h
  | cons x xs ih =>
    intro i y ys h
    match i with
    | 0 =>
      simp [extractAt] at h
      obtain ⟨h1, h2⟩ := h
      subst h1; subst h2
      exact List.Perm.refl _
    | n + 1 =>
      simp only [extractAt] at h
      match hx : extractAt n xs with
      | none => rw [hx] at h; simp at h
      | some (y0, ys0) =>
        rw [hx] at h
        simp at h
        obtain ⟨h1, h2⟩ := h
        subst h1; subst h2
        have hp := ih n y0 ys0 hx
        exact (List.Perm.cons x hp).trans (List.Perm.swap y0 x ys0)

theorem extractAt_isSome {α : Type} :
    ∀ (l : List α) (i : Nat), i < l.length → (extractAt i l).isSome := by
  intro l
  induction l with
  | nil => intro i h; simp at h
  | cons x xs ih =>
    intro i h
    match i with
    | 0 => simp [extractAt]
    | n + 1 =>
      simp only [List.length_cons, Nat.add_lt_add_iff_right] at h
      have := ih n h
      simp only [extractAt]
      match hx : extractAt n xs with
      | none => rw [hx] at this; simp at this
      | some (y, ys) => simp

theorem shuffleGo_perm {α : Type} :
    ∀ (fuel : Nat) (s : Nat) (l : List α), l.length = fuel →
      List.Perm (shuffleGo fuel s l) l := by
  intro fuel
  induction fuel with
  | zero => intro s l _; exact List.Perm.refl l
  | succ n ih =>
    intro s l hlen
    have hne : 0 < l.length := by omega
    have hsome := extractAt_isSome l (s % l.length) (Nat.mod_lt _ hne)
    simp only [shuffleGo]
    match hx : extractAt (s % l.length) l with
    | none => rw [hx] at hsome; simp at hsome
    | some (y, ys) =>
      have hp := extractAt_perm l _ y ys hx
      have hys : ys.length = n := by
        have := hp.length_eq
        simp at this
        omega
      exact (List.Perm.cons y (ih (lcg s) ys hys)).trans hp.symm

theorem seededShuffle_perm {α : Type} (l : List α) (s : Nat) :
    List.Perm (seededShuffle l s) l :=
  shuffleGo_perm l.length s l rfl

theorem seededShuffle_length {α : Type} (l : List α) (s : Nat) :
    (seededShuffle l s).length = l.length :=
  (seededShuffle_perm l s).length_eq

theorem mem_seededShuffle {α : Type} {l : List α} {s : Nat} {x : α}
    (h : x ∈ seededShuffle l s) : x ∈ l :=
  (seededShuffle_perm l s).mem_iff.mp h

theorem div_add_div_le (a b n : Nat) : a / n + b / n ≤ (a + b) / n := by
  match n with
  | 0 => simp
  | m + 1 =>
    have hn : 0 < m + 1 := Nat.succ_pos m
    rw [Nat.le_div_iff_mul_le hn, Nat.add_mul]
    have ha := Nat.div_mul_le_self a (m + 1)
    have hb := Nat.div_mul_le_self b (m + 1)
    omega

theorem sum_map_div_le (n : Nat) :
    ∀ xs : List Nat, (xs.map fun x => x / n).sum ≤ xs.sum / n := by
  intro xs
  induction xs with
  | nil => simp
  | cons x xs ih =>
    simp only [List.map_cons, List.sum_cons]
    calc x / n + (xs.map fun x => x / n).sum ≤ x / n + xs.sum / n :=
          Nat.add_le_add_left ih _
      _ ≤ (x + xs.sum) / n := div_add_div_le x xs.sum n

theorem sum_map_mul_left_nat (k : Nat) :
    ∀ xs : List Nat, (xs.map fun x => k * x).sum = k * xs.sum := by
  intro xs
  induction xs with
  | nil => simp
  | cons x xs ih => simp [ih, Nat.mul_add]

theorem floor_share_le {k n : Nat} (hkn : k ≤ n) (s : Nat) : k * s / n ≤ s := by
  match n with
  | 0 =>
    have : k = 0 := Nat.le_zero.mp hkn
    subst this; simp
  | m + 1 =>
    have hn : 0 < m + 1 := Nat.succ_pos m
    calc k * s / (m + 1) ≤ (m + 1) * s / (m + 1) :=
          Nat.div_le_div_right (Nat.mul_le_mul_right s hkn)
      _ = s := Nat.mul_div_cancel_left s hn

theorem allocGroups_map_fst (k n : Nat) :
    ∀ (gs : List (List Record)) (r : Nat), (allocGroups k n gs r).map Prod.fst = gs := by
  intro gs
  induction gs with
  | nil => intro r; simp [allocGroups]
  | cons g gs ih => intro r; simp [allocGroups, ih]

theorem allocGroups_quota_le {k n : Nat} (hkn : k ≤ n) :
    ∀ (gs : List (List Record)) (r : Nat),
      ∀ pr ∈ allocGroups k n gs r, pr.2 ≤ pr.1.length := by
  intro gs
  induction gs with
  | nil => intro r pr h; simp [allocGroups] at h
  | cons g gs ih =>
    intro r pr h
    simp only [allocGroups, List.mem_cons] at h
    cases h with
    | inl h =>
      subst h
      have := floor_share_le hkn g.length
      simp only
      omega
    | inr h => exact ih _ pr h

theorem sum_base_le_sum_length {k n : Nat} (hkn : k ≤ n) :
    ∀ gs : List (List Record),
      (gs.map fun g => k * g.length / n).sum ≤ (gs.map List.length).sum := by
  intro gs
  induction gs with
  | nil => simp
  | cons g gs ih =>
    simp only [List.map_cons, List.sum_cons]
    have := floor_share_le hkn g.length
    omega

theorem allocGroups_sum {k n : Nat} (hkn : k ≤ n) :
    ∀ (gs : List (List Record)) (r : Nat),
      ((allocGroups k n gs r).map Prod.snd).sum
        = (gs.map fun g => k * g.length / n).sum
          + min r ((gs.map List.length).sum - (gs.map fun g => k * g.length / n).sum) := by
  intro gs
  induction gs with
  | nil => intro r; simp [allocGroups]
  | cons g gs ih =>
    intro r
    simp only [allocGroups, List.map_cons, List.sum_cons, ih]
    have h1 := floor_share_le hkn g.length
    have h2 := sum_base_le_sum_length hkn gs
    omega

theorem splitAlloc_test_length (seed : Nat) :
    ∀ pairs : List (List Record × Nat),
      (∀ pr ∈ pairs, pr.2 ≤ pr.1.length) →
      (splitAlloc seed pairs).2.length = (pairs.map Prod.snd).sum := by
  intro pairs
  induction pairs with
  | nil => intro _; simp [splitAlloc]
  | cons pr rest ih =>
    intro h
    obtain ⟨g, a⟩ := pr
    have ha : a ≤ g.length := h (g, a) (List.mem_cons_self _ _)
    simp only [splitAlloc, List.length_append, List.length_take,
      seededShuffle_length, List.map_cons, List.sum_cons]
    rw [ih fun q hq => h q (List.mem_cons_of_mem _ hq)]
    omega

theorem splitAlloc_test_mem (seed : Nat) :
    ∀ (pairs : List (List Record × Nat)) (x : Record),
      x ∈ (splitAlloc seed pairs).2 → ∃ pr ∈ pairs, x ∈ pr.1 := by
  intro pairs
  induction pairs with
  | nil => intro x h; simp [splitAlloc] at h
  | cons pr rest ih =>
    intro x h
    obtain ⟨g, a⟩ := pr
    simp only [splitAlloc, List.mem_append] at h
    cases h with
    | inl h =>
      have hx : x ∈ seededShuffle g seed := (List.take_sublist a _).subset h
      exact ⟨(g, a), List.mem_cons_self _ _, mem_seededShuffle hx⟩
    | inr h =>
      obtain ⟨q, hq, hxq⟩ := ih x h
      exact ⟨q, List.mem_cons_of_mem _ hq, hxq⟩

theorem distinctLabels_nodup : ∀ ds : List Record, (distinctLabels ds).Nodup := by
  intro ds
  induction ds with
  | nil => simp [distinctLabels]
  | cons r rs ih =>
    simp only [distinctLabels]
    by_cases h : r.label ∈ distinctLabels rs
    · simpa [h] using ih
    · simp only [if_neg h]
      exact List.nodup_cons.mpr ⟨h, ih⟩

theorem label_mem_distinctLabels : ∀ {ds : List Record} {r : Record},
    r ∈ ds → r.label ∈ distinctLabels ds := by
  intro ds
  induction ds with
  | nil => intro r h; simp at h
  | cons x rs ih =>
    intro r h
    simp only [List.mem_cons] at h
    simp only [distinctLabels]
    by_cases hx : x.label ∈ distinctLabels rs
    · simp only [if_pos hx]
      cases h with
      | inl h => subst h; exact hx
      | inr h => exact ih h
    · simp only [if_neg hx, List.mem_cons]
      cases h with
      | inl h => subst h; exact Or.inl rfl
      | inr h => exact Or.inr (ih h)

theorem sum_filter_length_eq :
    ∀ (ls : List Nat) (ds : List Record), ls.Nodup → (∀ r ∈ ds, r.label ∈ ls) →
      (ls.map fun l => (ds.filter fun r => r.label == l).length).sum = ds.length := by
  intro ls
  induction ls with
  | nil =>
    intro ds _ hcov
    have : ds = [] := List.eq_nil_iff_forall_not_mem.mpr fun a ha => by
      simpa using hcov a ha
    subst this; simp
  | cons l ls ih =>
    intro ds hnd hcov
    have hlnotin : l ∉ ls := (List.nodup_cons.mp hnd).1
    have hndls : ls.Nodup := (List.nodup_cons.mp hnd).2
    simp only [List.map_cons, List.sum_cons]
    have hmap : ∀ l2 ∈ ls,
        (ds.filter fun r => r.label == l2)
          = ((ds.filter fun r => !(r.label == l)).filter fun r => r.label == l2) := by
      intro l2 hl2
      have hne : l2 ≠ l := fun hEq => hlnotin (hEq ▸ hl2)
      rw [List.filter_filter]
      apply List.filter_congr
      intro r _
      by_cases hr : r.label = l2
      · simp [hr, hne]
      · simp [hr]
    have hsum : (ls.map fun l2 => (ds.filter fun r => r.label == l2).length).sum
        = (ls.map fun l2 =>
            ((ds.filter fun r => !(r.label == l)).filter fun r => r.label == l2).length).sum := by
      apply congrArg List.sum
      exact List.map_congr_left fun l2 hl2 => congrArg List.length (hmap l2 hl2)
    have hcov2 : ∀ r ∈ ds.filter fun r => !(r.label == l), r.label ∈ ls := by
      intro r hr
      have hmem := List.mem_filter.mp hr
      have hrds := hmem.1
      have hrne : ¬(r.label == l) = true := by simpa using hmem.2
      have := hcov r hrds
      simp only [List.mem_cons] at this
      cases this with
      | inl h => exact absurd (by simpa using h) hrne
      | inr h => exact h
    rw [hsum, ih _ hndls hcov2]
    have hperm := List.filter_append_perm (fun r => r.label == l) ds
    have := hperm.length_eq
    simp only [List.length_append] at this
    omega

theorem sum_splitGroups_length (ds : List Record) :
    ((splitGroupsOf ds).map List.length).sum = ds.length := by
  have h := sum_filter_length_eq (distinctLabels ds) ds (distinctLabels_nodup ds)
    (fun _ hr => label_mem_distinctLabels hr)
  simpa [splitGroupsOf, labelGroup, List.map_map, Function.comp] using h

theorem ceilDivNat_zero (den : Nat) : ceilDivNat 0 den = 0 := by
  match den with
  | 0 => rfl
  | m + 1 =>
    simp only [ceilDivNat, Nat.zero_add, Nat.add_sub_cancel]
    exact Nat.div_eq_of_lt (Nat.lt_succ_self m)

theorem testQuota_le {num den : Nat} (hnd : num ≤ den) (ds : List Record) :
    testQuota ds num den ≤ ds.length := by
  match den with
  | 0 =>
    have : num = 0 := Nat.le_zero.mp hnd
    subst this
    simp [testQuota, ceilDivNat]
  | m + 1 =>
    have hden : 0 < m + 1 := Nat.succ_pos m
    simp only [testQuota, ceilDivNat]
    rw [Nat.div_le_iff_le_mul_add_pred hden]
    have : num * ds.length ≤ (m + 1) * ds.length :=
      Nat.mul_le_mul_right ds.length hnd
    omega

theorem sum_base_le_quota {num den : Nat} (hnd : num ≤ den) (ds : List Record) :
    ((splitGroupsOf ds).map fun g =>
        (testQuota ds num den) * g.length / ds.length).sum ≤ testQuota ds num den := by
  by_cases hds : ds = []
  · subst hds; simp [splitGroupsOf, distinctLabels]
  · have hn : 0 < ds.length := List.length_pos.mpr hds
    have h1 : ((splitGroupsOf ds).map fun g =>
        (testQuota ds num den) * g.length / ds.length).sum
        ≤ (((splitGroupsOf ds).map fun g =>
            (testQuota ds num den) * g.length).sum) / ds.length := by
      have := sum_map_div_le ds.length
        ((splitGroupsOf ds).map fun g => (testQuota ds num den) * g.length)
      simpa [List.map_map, Function.comp] using this
    have h2 : ((splitGroupsOf ds).map fun g =>
        (testQuota ds num den) * g.length).sum
        = (testQuota ds num den) * ds.length := by
      have := sum_map_mul_left_nat (testQuota ds num den) ((splitGroupsOf ds).map List.length)
      rw [← sum_splitGroups_length ds]
      simpa [List.map_map, Function.comp] using this
    calc ((splitGroupsOf ds).map fun g =>
          (testQuota ds num den) * g.length / ds.length).sum
        ≤ (((splitGroupsOf ds).map fun g =>
            (testQuota ds num den) * g.length).sum) / ds.length := h1
      _ = (testQuota ds num den) * ds.length / ds.length := by rw [h2]
      _ = testQuota ds num den := Nat.mul_div_cancel _ hn

theorem trainTestSplit_test_length {num den : Nat} (hnd : num ≤ den)
    (ds : List Record) (seed : Nat) :
    (trainTestSplit ds num den seed).test.length = testQuota ds num den := by
  have hkn : testQuota ds num den ≤ ds.length := testQuota_le hnd ds
  have hle : ∀ pr ∈ splitPairs ds num den, pr.2 ≤ pr.1.length := by
    intro pr h
    exact allocGroups_quota_le hkn _ _ pr h
  show (splitAlloc seed (splitPairs ds num den)).2.length = _
  rw [splitAlloc_test_length seed _ hle]
  show ((allocGroups (testQuota ds num den) ds.length (splitGroupsOf ds) _).map Prod.snd).sum = _
  rw [allocGroups_sum hkn]
  have hS := sum_splitGroups_length ds
  have hB := sum_base_le_quota hnd ds
  omega

theorem trainTestSplit_test_subset (ds : List Record) (num den seed : Nat) :
    ∀ x ∈ (trainTestSplit ds num den seed).test, x ∈ ds := by
  intro x hx
  obtain ⟨pr, hpr, hxpr⟩ := splitAlloc_test_mem seed (splitPairs ds num den) x hx
  have hfst : pr.1 ∈ splitGroupsOf ds := by
    have := allocGroups_map_fst (testQuota ds num den) ds.length (splitGroupsOf ds)
      (testQuota ds num den - ((splitGroupsOf ds).map fun g =>
        (testQuota ds num den) * g.length / ds.length).sum)
    have hmem : pr.1 ∈ (splitPairs ds num den).map Prod.fst := List.mem_map_of_mem Prod.fst hpr
    simpa [splitPairs, this] using hmem
  obtain ⟨l, _, hg⟩ := List.mem_map.mp hfst
  rw [← hg] at hxpr
  simp only [labelGroup] at hxpr
  exact (List.mem_filter.mp hxpr).1

/-- C1: the claim that after `setup()` the train, val and test partitions
are pairwise disjoint FAILS on the code.  Line 95 of
src/datamodules/chest_x_ray_dataset.py assigns `val_dataset` from
`train_val_split['train']`, the same branch that line 94 assigns to
`train_dataset`, so for every configuration, corpus and sample folder the
val partition is identical to the train partition; on the concrete
`sampleCorpus` both are non-empty, so some record index belongs to both
train and val. -/
theorem val_partition_aliases_train :
    (∀ (m : ChestXRayDataModule) (corpus ext : List Record),
      (m.setup corpus ext).val = (m.setup corpus ext).train)
    ∧ (sampleModule.setup sampleCorpus []).val = (sampleModule.setup sampleCorpus []).train
    ∧ (sampleModule.setup sampleCorpus []).train ≠ [] :=
  ⟨fun _ _ _ => rfl, rfl, by decide⟩

/-- C3: the size half of the claim FAILS on the code.  Because line 95
duplicates the train branch into `val_dataset`, the complementary
`train_val_split['test']` branch is dropped and the val partition double
counts the train branch: on `sampleCorpus` (8 records) the four partition
sizes sum to 9, not 8. -/
theorem partition_sizes_sum_exceeds_corpus :
    (sampleModule.setup sampleCorpus []).diffusion.length
      + (sampleModule.setup sampleCorpus []).train.length
      + (sampleModule.setup sampleCorpus []).val.length
      + (sampleModule.setup sampleCorpus []).test.length = 9
    ∧ sampleCorpus.length = 8 := by
  decide

/-- C2 counterexample: the claim says the same seed is threaded through all
three cascading stratified splits, but the legacy variant (src/dataset.py
lines 70, 74, 79) passes NO seed to any of its three `train_test_split`
calls, so each call shuffles with fresh operating-system entropy.  Two runs
of the legacy `setup()` on the same corpus that draw different ambient
entropy produce different partitions, refuting determinism for that
variant. -/
theorem legacy_setup_depends_on_ambient_entropy :
    setupLegacy sampleCorpus 0 ≠ setupLegacy sampleCorpus 1 := by
  decide

/-- C2 (amended): in the current 224×224 variant, where `seed=self.seed` is
passed to all three `train_test_split` calls, the four splitter partitions
are a function of the corpus and the seed alone: two module configurations
agreeing on the seed produce index-identical diffusion, train, val and test
partitions on the same corpus, whatever their other configuration fields
and sample-folder contents.  Re-running `setup()` with a fixed corpus and
seed therefore reproduces all four partitions index-for-index. -/
theorem seeded_setup_determined_by_corpus_and_seed
    (m1 m2 : ChestXRayDataModule) (corpus ext1 ext2 : List Record)
    (h : m1.seed = m2.seed) :
    (m1.setup corpus ext1).diffusion = (m2.setup corpus ext2).diffusion
    ∧ (m1.setup corpus ext1).train = (m2.setup corpus ext2).train
    ∧ (m1.setup corpus ext1).val = (m2.setup corpus ext2).val
    ∧ (m1.setup corpus ext1).test = (m2.setup corpus ext2).test := by
  simp [ChestXRayDataModule.setup, h]

/-- Witness for the amended C2 theorem at concrete inputs: two modules
differing in batch size, training mode and reduction mode but sharing the
default seed produce the same train partition on `sampleCorpus`. -/
theorem seeded_setup_determined_witness :
    (ChestXRayDataModule.setup
        { data_dir := "d", batch_size := 1, num_workers := 2,
          training_mode := "diffusion", reduce_train := "Reduce" }
        sampleCorpus []).train
      = (sampleModule.setup sampleCorpus sampleFolder).train :=
  (seeded_setup_determined_by_corpus_and_seed
    { data_dir := "d", batch_size := 1, num_workers := 2,
      training_mode := "diffusion", reduce_train := "Reduce" }
    sampleModule sampleCorpus [] sampleFolder rfl).2.1

/-- C4 counterexample: the claim predicts the pad/crop path exactly when
height < target height and width < target width, but the code compares
`image.size[-2]` (the PIL width) with `target_shape[0]` (the target height)
and `image.size[-1]` (the PIL height) with `target_shape[1]` (the target
width).  For `wideImage` (300×100) and target shape (350, 200) the claimed
condition is false, yet the code takes the padding path. -/
theorem selector_branch_refutes_claimed_axes :
    selectsPadding wideImage (350, 200) = true
    ∧ ¬(wideImage.height < 350 ∧ wideImage.width < 200) := by
  decide

/-- C4 (amended): the pad/crop-centered path is taken exactly when the
native WIDTH is strictly smaller than the target height and the native
HEIGHT is strictly smaller than the target width (the code indexes the PIL
`(width, height)` pair against the `(height, width)` target).  For square
target shapes — including the 224×224 shape the module always uses and the
legacy 28×28 shape — this coincides with the claimed condition, and an
image whose dimensions exactly equal the target takes the resize path. -/
theorem selectsPadding_characterization (img : Image) (ts : Nat × Nat) (s : Nat) :
    (selectsPadding img ts = true ↔ img.width < ts.1 ∧ img.height < ts.2)
    ∧ (selectsPadding img (s, s) = true ↔ img.height < s ∧ img.width < s) := by
  constructor
  · simp [selectsPadding, Image.size]
  · simp [selectsPadding, Image.size, and_comm]

set_option maxHeartbeats 2000000 in
/-- C5: under `reduce_train = "Reduce"` the augmented train dataset stored
in `self.train_dataset` is a `ChestXRayDataset` over the test branch of a
further seeded stratified split (`test_size=0.25`) of the train partition:
its size is ⌈|train|/4⌉ — 25% of the train partition up to rounding — and
every one of its records comes from the train partition. -/
theorem reduce_mode_quarter_subsample (m : ChestXRayDataModule)
    (corpus ext : List Record) (hm : m.reduce_train = "Reduce") :
    ∃ d : ChestXRayDataset,
      (m.setup corpus ext).trainSource = TrainDataset.xray d
      ∧ d.dataset.length = ceilDivNat (m.setup corpus ext).train.length 4
      ∧ ∀ r ∈ d.dataset, r ∈ (m.setup corpus ext).train := by
  refine ⟨{ dataset := (trainTestSplit (m.setup corpus ext).train 1 4 m.seed).test,
            target_shape := ShapeSlot.shape m.image_shape,
            transform_resize := some (Transform.resizeT m.image_shape),
            transform_padding := some (Transform.padT m.image_shape) }, ?_, ?_, ?_⟩
  · simp [ChestXRayDataModule.setup, hm]
  · have h := trainTestSplit_test_length (by omega : 1 ≤ 4) (m.setup corpus ext).train m.seed
    simpa [testQuota, Nat.one_mul] using h
  · intro r hr
    exact trainTestSplit_test_subset ((m.setup corpus ext).train) 1 4 m.seed r hr

/-- Witness for C5 at concrete inputs: on `sampleCorpus` with mode
`"Reduce"`, the train partition has 2 records and the augmented train
dataset ⌈2/4⌉ = 1 record drawn from it. -/
theorem reduce_mode_quarter_subsample_witness :
    ∃ d : ChestXRayDataset,
      (ChestXRayDataModule.setup { sampleModule with reduce_train := "Reduce" }
          sampleCorpus []).trainSource = TrainDataset.xray d
      ∧ d.dataset.length
          = ceilDivNat (ChestXRayDataModule.setup { sampleModule with reduce_train := "Reduce" }
              sampleCorpus []).train.length 4
      ∧ ∀ r ∈ d.dataset,
          r ∈ (ChestXRayDataModule.setup { sampleModule with reduce_train := "Reduce" }
              sampleCorpus []).train :=
  reduce_mode_quarter_subsample
    { sampleModule with reduce_train := "Reduce" } sampleCorpus [] rfl

/-- C6: any `reduce_train` value other than the five recognized mode
strings falls through the `if/elif/elif/else` chain (lines 96–109) to the
final `else` branch, so `setup` completes without error (the embedding is a
total function) and produces exactly the state that mode `"No"` produces:
the train partition wrapped unchanged. -/
theorem unrecognized_mode_behaves_as_no (m : ChestXRayDataModule)
    (corpus ext : List Record)
    (_h1 : m.reduce_train ≠ "No") (h2 : m.reduce_train ≠ "Reduce")
    (h3 : m.reduce_train ≠ "Reduce to merge") (h4 : m.reduce_train ≠ "Use Sample Only")
    (h5 : m.reduce_train ≠ "Merge Only") :
    m.setup corpus ext = ChestXRayDataModule.setup { m with reduce_train := "No" } corpus ext := by
  simp [ChestXRayDataModule.setup, h2, h3, h4, h5]

/-- Witness for C6 at concrete inputs: the unrecognized mode string
`"Banana"` yields exactly the `"No"` result on `sampleCorpus`. -/
theorem unrecognized_mode_behaves_as_no_witness :
    ChestXRayDataModule.setup { sampleModule with reduce_train := "Banana" } sampleCorpus sampleFolder
      = ChestXRayDataModule.setup
          { { sampleModule with reduce_train := "Banana" } with reduce_train := "No" }
          sampleCorpus sampleFolder :=
  unrecognized_mode_behaves_as_no { sampleModule with reduce_train := "Banana" }
    sampleCorpus sampleFolder (by decide) (by decide) (by decide) (by decide) (by decide)

/-- C7: under `reduce_train = "Use Sample Only"` the augmented train
dataset is the `ImageFolder` over the external sample folder alone: its
items are exactly the folder contents and no component of it is backed by
corpus records, so nothing in it comes from the splitter's train
partition. -/
theorem use_sample_only_excludes_corpus (m : ChestXRayDataModule)
    (corpus ext : List Record) (hm : m.reduce_train = "Use Sample Only") :
    (m.setup corpus ext).trainSource = TrainDataset.imageFolder ext
    ∧ TrainDataset.items (m.setup corpus ext).trainSource = ext
    ∧ TrainDataset.usesCorpusRecords (m.setup corpus ext).trainSource = false := by
  have h : (m.setup corpus ext).trainSource = TrainDataset.imageFolder ext := by
    simp [ChestXRayDataModule.setup, hm]
  exact ⟨h, by rw [h]; rfl, by rw [h]; rfl⟩

/-- Witness for C7 at concrete inputs. -/
theorem use_sample_only_excludes_corpus_witness :
    (ChestXRayDataModule.setup { sampleModule with reduce_train := "Use Sample Only" }
        sampleCorpus sampleFolder).trainSource = TrainDataset.imageFolder sampleFolder :=
  (use_sample_only_excludes_corpus { sampleModule with reduce_train := "Use Sample Only" }
    sampleCorpus sampleFolder rfl).1

theorem filter_map_succ (p : Nat → Bool) :
    ∀ l : List Nat, (l.map Nat.succ).filter p = (l.filter fun i => p (i + 1)).map Nat.succ := by
  intro l
  induction l with
  | nil => simp
  | cons x xs ih =>
    simp only [List.map_cons, List.filter_cons, Nat.succ_eq_add_one]
    by_cases h : p (x + 1)
    · simp [h, ih]
    · simp [h, ih]

theorem labelIndices_cons (r : Record) (rs : List Record) (L : Nat) :
    labelIndices (r :: rs) L
      = (if r.label == L then [0] else []) ++ (labelIndices rs L).map Nat.succ := by
  simp only [labelIndices, List.length_cons, List.range_succ_eq_map, List.filter_cons]
  rw [filter_map_succ]
  simp only [List.get?_cons_succ, List.get?_cons_zero, Option.map_some']
  by_cases hL : r.label = L
  · simp [hL]
  · simp [hL]

theorem labelIndices_length (ds : List Record) (L : Nat) :
    (labelIndices ds L).length = (ds.filter fun r => r.label == L).length := by
  induction ds with
  | nil => simp [labelIndices]
  | cons r rs ih =>
    rw [labelIndices_cons]
    by_cases hL : r.label = L
    · simp [List.filter_cons, hL, ih]
    · simp [List.filter_cons, hL, ih]

theorem labelIndices_spec {ds : List Record} {L j : Nat} (h : j ∈ labelIndices ds L) :
    ∃ r : Record, ds.get? j = some r ∧ r.label = L := by
  have h2 := List.mem_filter.mp h
  have h3 : ((ds.get? j).map Record.label) = some L := by
    have hb := h2.2
    exact beq_iff_eq.mp hb
  match hj : ds.get? j with
  | none => rw [hj] at h3; simp at h3
  | some r =>
    rw [hj] at h3
    simp only [Option.map_some', Option.some.injEq] at h3
    exact ⟨r, rfl, h3⟩

theorem perLabel_getitem_spec (ds : List Record) (L : Nat) (t : Option Transform)
    (i : Nat) (hi : i < (labelIndices ds L).length) :
    ∃ r : Record,
      ds.get? ((labelIndices ds L).get ⟨i, hi⟩) = some r ∧ r.label = L
      ∧ (mkPerLabel ds L t).getitem i = some (r.image, r.label) := by
  obtain ⟨r, hr, hrL⟩ := labelIndices_spec (List.get_mem (labelIndices ds L) i hi)
  refine ⟨r, hr, hrL, ?_⟩
  have hidx : (mkPerLabel ds L t).indices.get? i
      = some ((labelIndices ds L).get ⟨i, hi⟩) := List.get?_eq_get hi
  have hds : (mkPerLabel ds L t).base.dataset.get? ((labelIndices ds L).get ⟨i, hi⟩)
      = some r := hr
  unfold ChestXRayDatasetPerLabel.getitem
  rw [hidx]
  show (mkPerLabel ds L t).base.getitem ((labelIndices ds L).get ⟨i, hi⟩)
      = some (r.image, r.label)
  unfold ChestXRayDataset.getitem
  rw [hds]
  rfl

theorem perLabelLegacy_getitem_spec (ds : List Record) (L : Nat) (t : Option Transform)
    (i : Nat) (hi : i < (labelIndices ds L).length) :
    ∃ img : Image, (mkPerLabelLegacy ds L t).getitem i = some (img, L) := by
  obtain ⟨r, hr, hrL⟩ := labelIndices_spec (List.get_mem (labelIndices ds L) i hi)
  subst hrL
  have hidx : (mkPerLabelLegacy ds r.label t).indices.get? i
      = some ((labelIndices ds r.label).get ⟨i, hi⟩) := List.get?_eq_get hi
  have hds : (mkPerLabelLegacy ds r.label t).base.dataset.get?
      ((labelIndices ds r.label).get ⟨i, hi⟩) = some r := hr
  cases t with
  | none =>
    refine ⟨r.image, ?_⟩
    unfold ChestXRayDatasetPerLabelLegacy.getitem
    rw [hidx]
    show (mkPerLabelLegacy ds r.label none).base.getitem
        ((labelIndices ds r.label).get ⟨i, hi⟩) = some (r.image, r.label)
    unfold ChestXRayDatasetLegacy.getitem
    rw [hds]
    rfl
  | some tt =>
    refine ⟨applyTransform tt r.image, ?_⟩
    unfold ChestXRayDatasetPerLabelLegacy.getitem
    rw [hidx]
    show (mkPerLabelLegacy ds r.label (some tt)).base.getitem
        ((labelIndices ds r.label).get ⟨i, hi⟩) = some (applyTransform tt r.image, r.label)
    unfold ChestXRayDatasetLegacy.getitem
    rw [hds]
    rfl

/-- C8: for every wrapped collection, target label and transform argument,
the label-filtered dataset — in both the 224×224 variant and the legacy
variant, which share the same index-remapping construction — has length
equal to the number of records in the collection carrying that label, and
every in-range access returns a sample whose label equals the target
label. -/
theorem per_label_source_length_and_labels (ds : List Record) (L : Nat) (t : Option Transform) :
    (mkPerLabel ds L t).indices.length = (ds.filter fun r => r.label == L).length
    ∧ (mkPerLabelLegacy ds L t).indices.length = (ds.filter fun r => r.label == L).length
    ∧ (∀ i : Nat, i < (mkPerLabel ds L t).indices.length →
        ∃ img : Image, (mkPerLabel ds L t).getitem i = some (img, L))
    ∧ (∀ i : Nat, i < (mkPerLabelLegacy ds L t).indices.length →
        ∃ img : Image, (mkPerLabelLegacy ds L t).getitem i = some (img, L)) := by
  refine ⟨labelIndices_length ds L, labelIndices_length ds L, ?_, ?_⟩
  · intro i hi
    have hi2 : i < (labelIndices ds L).length := hi
    obtain ⟨r, _, hrL, hit⟩ := perLabel_getitem_spec ds L t i hi2
    refine ⟨r.image, ?_⟩
    rw [hit, hrL]
  · intro i hi
    have hi2 : i < (labelIndices ds L).length := hi
    exact perLabelLegacy_getitem_spec ds L t i hi2

/-- Witness for C8 at concrete inputs: `sampleCorpus` has four records of
label 1, and the first sample of the label-1 filtered dataset carries
label 1. -/
theorem per_label_source_length_and_labels_witness :
    (mkPerLabel sampleCorpus 1 none).indices.length
      = (sampleCorpus.filter fun r => r.label == 1).length
    ∧ ∃ img : Image, (mkPerLabel sampleCorpus 1 none).getitem 0 = some (img, 1) :=
  ⟨(per_label_source_length_and_labels sampleCorpus 1 none).1,
   (per_label_source_length_and_labels sampleCorpus 1 none).2.2.1 0 (by decide)⟩

/-- C9: `set_training_mode` changes the Training Mode flag only for the two
recognized strings; any other argument raises no error (the embedding is a
total function) and leaves the module state — in particular the flag, which
defaults to `"classification"` at construction — unchanged, so the next
`train_dataloader` call still selects its dataset from the previously held
mode. -/
theorem set_training_mode_ignores_unrecognized (m : ChestXRayDataModule) (mode : String)
    (h1 : mode ≠ "classification") (h2 : mode ≠ "diffusion") :
    m.set_training_mode mode = m
    ∧ (m.set_training_mode mode).training_mode = m.training_mode
    ∧ (∀ p : Partitions, trainLoaderSource (m.set_training_mode mode) p = trainLoaderSource m p)
    ∧ ∀ (dd : String) (bs nw : Nat),
        ({ data_dir := dd, batch_size := bs, num_workers := nw } :
          ChestXRayDataModule).training_mode = "classification" := by
  have hmode : ¬(mode = "classification" ∨ mode = "diffusion") := by
    intro h
    cases h with
    | inl h => exact h1 h
    | inr h => exact h2 h
  have hset : m.set_training_mode mode = m := by
    simp [ChestXRayDataModule.set_training_mode, hmode]
  exact ⟨hset, by rw [hset], fun p => by rw [hset], fun _ _ _ => rfl⟩

/-- Witness for C9 at a concrete input: the string `"Diffusion"` (wrong
capitalization) is silently ignored. -/
theorem set_training_mode_ignores_unrecognized_witness :
    sampleModule.set_training_mode "Diffusion" = sampleModule :=
  (set_training_mode_ignores_unrecognized sampleModule "Diffusion"
    (by decide) (by decide)).1

/-- C10: in the 224×224 variant the label-filtered dataset stores its
transform argument in the `target_shape` slot of the base class (the result
of `super().__init__(dataset, transform)` against the base signature
`(dataset, target_shape, transform_resize=None, transform_padding=None)`)
and leaves both transform slots `None`; since the base `__getitem__`
transforms only when both slots are set, every sample it returns carries
the raw decoded image, for every transform argument. -/
theorem per_label_returns_untransformed (ds : List Record) (L : Nat) (t : Option Transform) :
    (mkPerLabel ds L t).base.target_shape = ShapeSlot.transformObj t
    ∧ (mkPerLabel ds L t).base.transform_resize = none
    ∧ (mkPerLabel ds L t).base.transform_padding = none
    ∧ ∀ i j : Nat, (mkPerLabel ds L t).indices.get? i = some j →
        ∃ r : Record, ds.get? j = some r
          ∧ (mkPerLabel ds L t).getitem i = some (r.image, r.label) := by
  refine ⟨rfl, rfl, rfl, ?_⟩
  intro i j hij
  have hij2 : (labelIndices ds L).get? i = some j := hij
  obtain ⟨hi, hj⟩ := List.get?_eq_some.mp hij2
  subst hj
  obtain ⟨r, hr, _, hit⟩ := perLabel_getitem_spec ds L t i hi
  exact ⟨r, hr, hit⟩

/-- Witness for C10 at concrete inputs: the label-1 filtered dataset over
`sampleCorpus`, built with the sample transform, returns at position 0 the
raw image of corpus record 4. -/
theorem per_label_returns_untransformed_witness :
    ∃ r : Record, sampleCorpus.get? 4 = some r
      ∧ (mkPerLabel sampleCorpus 1 (some Transform.sampleT)).getitem 0 = some (r.image, r.label) :=
  (per_label_returns_untransformed sampleCorpus 1 (some Transform.sampleT)).2.2.2 0 4 (by decide)
